import Mathlib

/-!
Verification development for the streaming request/response pipeline with
multi-credential failover of the legal-assistance client
(`src/services/geminiService.ts`).

Strings are modelled as lists of characters (`Str`); JavaScript string
literals are written `"...".data`.  Asynchronous provider calls are modelled
as explicit functions from the attempt ordinal and the current credential
cursor to an `Except` outcome; thrown JavaScript errors are `Except.error`
values carrying the observable fields (`name`, `message`, `status`, `code`,
`httpStatusCode`) that the code inspects.  Chunk sinks are modelled by
returning the list of sink invocations in call order.
-/

abbrev Str := List Char

/-- Whitespace class used by JavaScript `trim` and `\s` (ASCII part). -/
def isJsWs (c : Char) : Bool :=
  c = ' ' || c = '\t' || c = '\n' || c = '\r' || c = '\x0b' || c = '\x0c'

/-- Left-trim: drop leading whitespace (JS `trimStart`, and regex `\s*` runs). -/
def trimL (s : Str) : Str := s.dropWhile isJsWs

/-- Right-trim: drop trailing whitespace (JS `trimEnd`). -/
def trimR : Str → Str
  | [] => []
  | c :: cs =>
    let r := trimR cs
    if r = [] ∧ isJsWs c then [] else c :: r

/-- JS `String.prototype.trim`: whitespace removed at both ends. -/
def trimJs (s : Str) : Str := trimL (trimR s)

/-- Leftmost occurrence of `pat` in `s`: `some (before, after)` splits `s`
as `before ++ pat ++ after` at the first occurrence, `none` if absent. -/
def firstOcc (pat : Str) : Str → Option (Str × Str)
  | [] => if pat.isPrefixOf [] then some ([], ([] : Str).drop pat.length) else none
  | c :: cs =>
    if pat.isPrefixOf (c :: cs) then some ([], (c :: cs).drop pat.length)
    else
      match firstOcc pat cs with
      | none => none
      | some (b, a) => some (c :: b, a)

/-- JS `String.prototype.includes`. -/
def containsSub (pat s : Str) : Bool := (firstOcc pat s).isSome

/-- JS `String.prototype.endsWith`. -/
def endsWithStr (pat s : Str) : Bool := pat.reverse.isPrefixOf s.reverse

/-- Observable fields of a thrown JavaScript error, as inspected by
`is429Error` and the `err?.name === 'AbortError'` check. -/
structure JsError where
  name : Str
  message : Str
  status : Option Nat
  code : Option Nat
  httpStatusCode : Option Nat
deriving DecidableEq

/-- `is429Error` from `geminiService.ts`: rate-limit classification via
message substrings and the `status`/`code`/`httpStatusCode` fields. -/
def is429Error (e : JsError) : Bool :=
  containsSub "429".data e.message ||
  containsSub "RESOURCE_EXHAUSTED".data e.message ||
  e.status == some 429 ||
  e.code == some 429 ||
  e.httpStatusCode == some 429

/-- The error thrown after the rotation loop exits:
`'All API keys have hit their rate limit. Please wait a minute and try again.'` -/
def exhaustedError : JsError :=
  ⟨"Error".data,
   "All API keys have hit their rate limit. Please wait a minute and try again.".data,
   none, none, none⟩

/-- The configuration error thrown by `getClient` when no keys are set:
`'API_KEY is missing. Please set it in the environment.'` -/
def apiKeyMissingError : JsError :=
  ⟨"Error".data, "API_KEY is missing. Please set it in the environment.".data,
   none, none, none⟩

/-- `getClient`: fails with the configuration error when the pool is empty,
otherwise yields a client for the current key (modelled by its index). -/
def getClient (numKeys cursor : Nat) : Except JsError Nat :=
  if numKeys = 0 then Except.error apiKeyMissingError else Except.ok cursor

/-- `rotateKey`: advance the cursor to the next key modulo the pool size;
returns `false` without moving when there is a single key. -/
def rotateKey (numKeys cursor : Nat) : Bool × Nat :=
  let nextIndex := (cursor + 1) % numKeys
  if nextIndex = cursor ∧ numKeys = 1 then (false, cursor)
  else (true, nextIndex)

/-- Outcome of one wrapped call: the settled result, the cursor after the
call, the number of times the wrapped operation was attempted, and the
sequence of sink invocations made while it ran. -/
structure RunResult (α : Type) where
  result : Except JsError α
  cursor : Nat
  attempts : Nat
  sink : List Str

/-- The `while (triedKeys < API_KEYS.length)` loop of `withKeyRotation`.
`fuel` is the number of loop iterations still allowed, i.e.
`API_KEYS.length - triedKeys`; the fuel-exhausted branch is the
`throw new Error('All API keys have hit their rate limit…')` after the loop.
Each attempt's sink emissions are appended to `log`. -/
def rotGoW (numKeys : Nat) (op : Nat → Nat → Except JsError α × List Str) :
    Nat → Nat → Nat → Nat → List Str → RunResult α
  | 0, _, cursor, attempts, log => ⟨Except.error exhaustedError, cursor, attempts, log⟩
  | fuel + 1, triedKeys, cursor, attempts, log =>
    let (res, emitted) := op attempts cursor
    let log2 := log ++ emitted
    match res with
    | Except.ok a => ⟨Except.ok a, cursor, attempts + 1, log2⟩
    | Except.error e =>
      if e.name = "AbortError".data then ⟨Except.error e, cursor, attempts + 1, log2⟩
      else if is429Error e then
        if triedKeys + 1 < numKeys then
          rotGoW numKeys op fuel (triedKeys + 1) (rotateKey numKeys cursor).2 (attempts + 1) log2
        else ⟨Except.error e, cursor, attempts + 1, log2⟩
      else ⟨Except.error e, cursor, attempts + 1, log2⟩

/-- `withKeyRotation`, generalized over an operation that also records its
sink emissions: start with `triedKeys = 0` and run the loop. -/
def withKeyRotationW (numKeys : Nat) (op : Nat → Nat → Except JsError α × List Str)
    (cursor : Nat) : RunResult α :=
  rotGoW numKeys op numKeys 0 cursor 0 []

/-- `withKeyRotation` for operations with no sink. -/
def withKeyRotation (numKeys : Nat) (op : Nat → Nat → Except JsError α)
    (cursor : Nat) : RunResult α :=
  withKeyRotationW numKeys (fun a c => (op a c, [])) cursor

/-- A sample provider error carrying a rate-limit message. -/
def rate429Error : JsError :=
  ⟨"Error".data, "429 rate limit".data, none, none, none⟩

/-- An operation that is rate-limited on every attempt (result type `Str`). -/
def always429Op : Nat → Nat → Except JsError Str :=
  fun _ _ => Except.error rate429Error

/-- Claim C1 (code_bug evidence): with a pool of 3 keys (and likewise 1 key)
and an operation that is rate-limited on every attempt, `withKeyRotation`
makes exactly one attempt per credential but then rethrows the *last
provider 429 error*; the distinct exhausted error written after the loop is
not what the caller receives. -/
theorem withKeyRotation_exhaustion_eval :
    (withKeyRotation 3 always429Op 0).attempts = 3
    ∧ (withKeyRotation 3 always429Op 0).result = Except.error rate429Error
    ∧ (withKeyRotation 1 always429Op 0).attempts = 1
    ∧ (withKeyRotation 1 always429Op 0).result = Except.error rate429Error
    ∧ rate429Error ≠ exhaustedError := by
  refine ⟨rfl, rfl, rfl, rfl, ?_⟩
  decide

/-- Claim C3 (code_bug evidence): with an empty pool, a call through
`withKeyRotation` makes zero attempts (so `getClient`'s configuration error
is unreachable) and fails with the rate-limit-exhausted error instead of the
configuration error. -/
theorem withKeyRotation_emptyPool_eval :
    (withKeyRotation 0 (fun _ cur => (getClient 0 cur).map (fun k => k)) 0).attempts = 0
    ∧ (withKeyRotation 0 (fun _ cur => (getClient 0 cur).map (fun k => k)) 0).result
      = Except.error exhaustedError
    ∧ exhaustedError ≠ apiKeyMissingError := by
  refine ⟨rfl, rfl, ?_⟩
  decide

/-- One unfolding step of the rotation loop, stated with projections so it
can be applied by rewriting. -/
theorem rotGoW_succ (numKeys : Nat) (op : Nat → Nat → Except JsError α × List Str)
    (fuel triedKeys cursor attempts : Nat) (log : List Str) :
    rotGoW numKeys op (fuel + 1) triedKeys cursor attempts log =
      (match (op attempts cursor).1 with
       | Except.ok a => ⟨Except.ok a, cursor, attempts + 1, log ++ (op attempts cursor).2⟩
       | Except.error e =>
         if e.name = "AbortError".data then
           ⟨Except.error e, cursor, attempts + 1, log ++ (op attempts cursor).2⟩
         else if is429Error e then
           if triedKeys + 1 < numKeys then
             rotGoW numKeys op fuel (triedKeys + 1) (rotateKey numKeys cursor).2
               (attempts + 1) (log ++ (op attempts cursor).2)
           else ⟨Except.error e, cursor, attempts + 1, log ++ (op attempts cursor).2⟩
         else ⟨Except.error e, cursor, attempts + 1, log ++ (op attempts cursor).2⟩) := rfl

/-- Claim C4: if credential #1 rate-limits and credential #2 succeeds, the
operation returns credential #2's result after 2 attempts and the cursor is
left (stickily) at index 1; for the pool `[K1, K2, K3]` with K1, K2
rate-limited and K3 answering `"OK"`, there are 3 attempts, the result is
`"OK"`, and the cursor ends at K3 (index 2). -/
theorem rotation_success_sticky :
    (∀ (numKeys : Nat) (e : JsError) (v : Str),
      2 ≤ numKeys → e.name ≠ "AbortError".data → is429Error e = true →
      withKeyRotation numKeys (fun _ cur => if cur = 1 then Except.ok v else Except.error e) 0
        = ⟨Except.ok v, 1, 2, []⟩)
    ∧ (∀ e : JsError, e.name ≠ "AbortError".data → is429Error e = true →
      withKeyRotation 3 (fun _ cur => if cur = 2 then Except.ok "OK".data else Except.error e) 0
        = ⟨Except.ok "OK".data, 2, 3, []⟩) := by
  constructor
  · intro numKeys e v hn hname h429
    obtain ⟨k, rfl⟩ : ∃ k, numKeys = k + 2 := ⟨numKeys - 2, by omega⟩
    unfold withKeyRotation withKeyRotationW
    rw [show k + 2 = (k + 1) + 1 from rfl, rotGoW_succ]
    have hm : 1 % (k + 1 + 1) = 1 := Nat.mod_eq_of_lt (by omega)
    have hlt : 0 + 1 < k + 1 + 1 := by omega
    simp [hname, h429, hlt, rotateKey, hm]
    rw [rotGoW_succ]
    simp
  · intro e hname h429
    unfold withKeyRotation withKeyRotationW
    rw [show (3 : Nat) = (1 + 1) + 1 from rfl, rotGoW_succ]
    simp [hname, h429, rotateKey]
    rw [rotGoW_succ]
    simp [hname, h429, rotateKey]
    rw [rotGoW_succ]
    simp

/-- Witness for `rotation_success_sticky` at a concrete pool of 2 and a
concrete rate-limited error. -/
theorem rotation_success_sticky_witness :
    (2 ≤ 2 ∧ rate429Error.name ≠ "AbortError".data ∧ is429Error rate429Error = true)
    ∧ withKeyRotation 2
        (fun _ cur => if cur = 1 then Except.ok "R".data else Except.error rate429Error) 0
      = ⟨Except.ok "R".data, 1, 2, []⟩ :=
  ⟨⟨by decide, by decide, by decide⟩,
   rotation_success_sticky.1 2 rate429Error "R".data (by decide) (by decide) (by decide)⟩

/-- Rate-limit classification *as worded by the claim/spec*: message contains
"429" or "RESOURCE_EXHAUSTED", or the `status`/`code` field equals 429.
This is the comparison definition for the refinement check against the
code's `is429Error`; it omits the code's `httpStatusCode === 429` clause. -/
def specClaimed429Class (e : JsError) : Bool :=
  containsSub "429".data e.message ||
  containsSub "RESOURCE_EXHAUSTED".data e.message ||
  e.status == some 429 ||
  e.code == some 429

/-- A provider error whose only rate-limit marker is `httpStatusCode: 429`. -/
def httpStatus429Error : JsError :=
  ⟨"Error".data, "Too Many Requests".data, none, none, some 429⟩

/-- Claim C5 counterexample: the error `httpStatus429Error` is outside the
claim's classification (message has no "429"/"RESOURCE_EXHAUSTED", `status`
and `code` are unset), so per the claim it must be rethrown immediately on
the first attempt with no retry; yet `withKeyRotation` retries it — the
second attempt runs and its result is returned after 2 attempts. -/
theorem rotation_httpStatusCode_counterexample :
    specClaimed429Class httpStatus429Error = false
    ∧ withKeyRotation 2
        (fun a _ => if a = 0 then Except.error httpStatus429Error else Except.ok "ok".data) 0
      = ⟨Except.ok "ok".data, 1, 2, []⟩ := by
  exact ⟨by decide, rfl⟩

/-- Claim C5 (amended): `withKeyRotation` retries only on errors classified
rate-limit by `is429Error` — message contains "429" or "RESOURCE_EXHAUSTED",
or `status`, `code`, *or `httpStatusCode`* equals 429; an `AbortError` and
every error outside that class are rethrown immediately, on the first
attempt, without any retry and without moving the cursor.  `is429Error` does
accept a bare `httpStatusCode: 429` error. -/
theorem rotation_retry_classification :
    (∀ (numKeys : Nat) (op : Nat → Nat → Except JsError Str) (e : JsError) (cursor : Nat),
      1 ≤ numKeys → op 0 cursor = Except.error e →
      (e.name = "AbortError".data ∨ is429Error e = false) →
      withKeyRotation numKeys op cursor = ⟨Except.error e, cursor, 1, []⟩)
    ∧ is429Error httpStatus429Error = true := by
  constructor
  · intro numKeys op e cursor hn hop hclass
    obtain ⟨k, rfl⟩ : ∃ k, numKeys = k + 1 := ⟨numKeys - 1, by omega⟩
    unfold withKeyRotation withKeyRotationW
    rw [rotGoW_succ]
    dsimp only
    rw [hop]
    rcases hclass with habort | h429
    · simp [habort]
    · by_cases hname : e.name = "AbortError".data
      · simp [hname]
      · simp [hname, h429]
  · decide

/-- Witness for `rotation_retry_classification` at a concrete non-rate-limit
error and a pool of one key. -/
theorem rotation_retry_classification_witness :
    (1 ≤ 1
      ∧ (fun (_ : Nat) (_ : Nat) =>
          (Except.error ⟨"TypeError".data, "network down".data, none, none, none⟩ :
            Except JsError Str)) 0 0
        = Except.error ⟨"TypeError".data, "network down".data, none, none, none⟩
      ∧ is429Error ⟨"TypeError".data, "network down".data, none, none, none⟩ = false)
    ∧ withKeyRotation 1
        (fun _ _ =>
          (Except.error ⟨"TypeError".data, "network down".data, none, none, none⟩ :
            Except JsError Str)) 0
      = ⟨Except.error ⟨"TypeError".data, "network down".data, none, none, none⟩, 0, 1, []⟩ :=
  ⟨⟨by decide, rfl, by decide⟩,
   rotation_retry_classification.1 1
     (fun _ _ => Except.error ⟨"TypeError".data, "network down".data, none, none, none⟩)
     ⟨"TypeError".data, "network down".data, none, none, none⟩ 0
     (by decide) rfl (Or.inr (by decide))⟩

/-- The chunk-forwarding loop shared by the streaming operations:
`for await (const chunk of result) { if (abortSignal?.aborted) break;
if (chunk.text) onChunk(chunk.text); }`.  `ab i` is the state of
`abortSignal.aborted` observed after the i-th fragment has been read;
fragments with falsy (empty) text are not emitted.  Returns the list of
sink invocations in call order. -/
def streamLoop (ab : Nat → Bool) : List Str → Nat → List Str
  | [], _ => []
  | c :: cs, i =>
    if ab i then []
    else if c = [] then streamLoop ab cs (i + 1)
    else c :: streamLoop ab cs (i + 1)

/-- The loop of `analyzeJudgment`, which both accumulates `fullResponse`
(via `fullResponse += chunk.text`) and forwards each fragment to the sink.
Returns `(fullResponse, sink invocations)`. -/
def analyzeStream (ab : Nat → Bool) : List Str → Nat → Str × List Str
  | [], _ => ([], [])
  | c :: cs, i =>
    if ab i then ([], [])
    else if c = [] then analyzeStream ab cs (i + 1)
    else
      let (f, s) := analyzeStream ab cs (i + 1)
      (c ++ f, c :: s)

/-- `streamChatResponse`: obtain the client, open the provider stream
(modelled by the chunk list it yields), and run the forwarding loop inside
`withKeyRotation`; the surrounding try/catch rethrows every error, and a
normal exit of the loop resolves the call. -/
def streamChatResponse (numKeys cursor : Nat) (ab : Nat → Bool)
    (chunks : List Str) : RunResult Unit :=
  withKeyRotationW numKeys (fun _ cur =>
    match getClient numKeys cur with
    | Except.error e => (Except.error e, [])
    | Except.ok _ => (Except.ok (), streamLoop ab chunks 0)) cursor

/-- `snapAndSolve`: identical control shape to `streamChatResponse`
(different prompt, same client/stream/loop/rethrow structure). -/
def snapAndSolve (numKeys cursor : Nat) (ab : Nat → Bool)
    (chunks : List Str) : RunResult Unit :=
  withKeyRotationW numKeys (fun _ cur =>
    match getClient numKeys cur with
    | Except.error e => (Except.error e, [])
    | Except.ok _ => (Except.ok (), streamLoop ab chunks 0)) cursor

/-- If the signal is already aborted when the first fragment arrives, the
loop emits nothing. -/
theorem streamLoop_abort_first (ab : Nat → Bool) (chunks : List Str)
    (h : ab 0 = true) : streamLoop ab chunks 0 = [] := by
  cases chunks <;> simp [streamLoop, h]

/-- With no abort, the loop emits exactly the non-empty fragments, in order. -/
theorem streamLoop_no_abort (ab : Nat → Bool) (h : ∀ i, ab i = false) :
    ∀ (chunks : List Str) (i : Nat),
      streamLoop ab chunks i = chunks.filter (fun c => !c.isEmpty) := by
  intro chunks
  induction chunks with
  | nil => intro i; simp [streamLoop]
  | cons c cs ih =>
    intro i
    cases c <;> simp [streamLoop, h i, ih (i + 1), List.filter]

/-- With no abort, `analyzeJudgment`'s loop accumulates the concatenation of
all fragments and emits exactly the non-empty fragments, in order. -/
theorem analyzeStream_no_abort (ab : Nat → Bool) (h : ∀ i, ab i = false) :
    ∀ (chunks : List Str) (i : Nat),
      analyzeStream ab chunks i = (chunks.flatten, chunks.filter (fun c => !c.isEmpty)) := by
  intro chunks
  induction chunks with
  | nil => intro i; simp [analyzeStream]
  | cons c cs ih =>
    intro i
    cases c <;> simp [analyzeStream, h i, ih (i + 1), List.filter]

/-- Dropping the empty fragments does not change the concatenation. -/
theorem flatten_filter_nonempty (chunks : List Str) :
    (chunks.filter (fun c => !c.isEmpty)).flatten = chunks.flatten := by
  induction chunks with
  | nil => rfl
  | cons c cs ih =>
    cases c <;> simp [List.filter, ih]

/-- Claim C2 counterexample: with the cancellation signal already triggered
before the first fragment is read, `streamChatResponse` delivers zero chunks
to the sink — but it *resolves normally* (`Except.ok ()`), not with the
distinct cancellation failure the claim requires. -/
theorem streaming_abort_counterexample :
    streamChatResponse 1 0 (fun _ => true) ["Hel".data, "lo".data]
      = ⟨Except.ok (), 0, 1, []⟩
    ∧ (streamChatResponse 1 0 (fun _ => true) ["Hel".data, "lo".data]).result.isOk = true := by
  exact ⟨rfl, rfl⟩

/-- Claim C2 (amended): if the cancellation signal is already triggered
before the first fragment is read, zero chunks are delivered to the sink;
but since the loop merely `break`s, the operation completes normally
(`Except.ok ()`) rather than failing with the cancellation condition
(the provider stream itself succeeding).  Holds for `streamChatResponse`
and `snapAndSolve` alike. -/
theorem streaming_abort_precedence :
    (∀ (numKeys cursor : Nat) (ab : Nat → Bool) (chunks : List Str),
      1 ≤ numKeys → ab 0 = true →
      streamChatResponse numKeys cursor ab chunks = ⟨Except.ok (), cursor, 1, []⟩)
    ∧ (∀ (numKeys cursor : Nat) (ab : Nat → Bool) (chunks : List Str),
      1 ≤ numKeys → ab 0 = true →
      snapAndSolve numKeys cursor ab chunks = ⟨Except.ok (), cursor, 1, []⟩) := by
  constructor <;>
  · intro numKeys cursor ab chunks hn hab
    obtain ⟨k, rfl⟩ : ∃ k, numKeys = k + 1 := ⟨numKeys - 1, by omega⟩
    simp only [streamChatResponse, snapAndSolve, withKeyRotationW]
    rw [rotGoW_succ]
    simp [getClient, streamLoop_abort_first ab chunks hab]

/-- Witness for `streaming_abort_precedence` on a concrete aborted call. -/
theorem streaming_abort_precedence_witness :
    (1 ≤ 1 ∧ (fun (_ : Nat) => true) 0 = true)
    ∧ streamChatResponse 1 0 (fun _ => true) ["A".data] = ⟨Except.ok (), 0, 1, []⟩
    ∧ snapAndSolve 1 0 (fun _ => true) ["A".data] = ⟨Except.ok (), 0, 1, []⟩ :=
  ⟨⟨by decide, rfl⟩,
   streaming_abort_precedence.1 1 0 (fun _ => true) ["A".data] (by decide) rfl,
   streaming_abort_precedence.2 1 0 (fun _ => true) ["A".data] (by decide) rfl⟩

/-- Claim C6: for a non-cancelled streaming call, the sink receives exactly
the non-empty fragments in provider order — no drops, duplication, or
reordering — and their concatenation equals the provider's full response
text (the concatenation of all fragments); likewise for `analyzeJudgment`'s
loop, whose accumulated `fullResponse` also equals both. -/
theorem stream_chunk_concat :
    (∀ (numKeys cursor : Nat) (ab : Nat → Bool) (chunks : List Str),
      1 ≤ numKeys → (∀ i, ab i = false) →
      (streamChatResponse numKeys cursor ab chunks).sink
          = chunks.filter (fun c => !c.isEmpty)
        ∧ ((streamChatResponse numKeys cursor ab chunks).sink).flatten = chunks.flatten)
    ∧ (∀ (ab : Nat → Bool) (chunks : List Str), (∀ i, ab i = false) →
        (analyzeStream ab chunks 0).2 = chunks.filter (fun c => !c.isEmpty)
        ∧ ((analyzeStream ab chunks 0).2).flatten = (analyzeStream ab chunks 0).1
        ∧ (analyzeStream ab chunks 0).1 = chunks.flatten) := by
  constructor
  · intro numKeys cursor ab chunks hn hab
    obtain ⟨k, rfl⟩ : ∃ k, numKeys = k + 1 := ⟨numKeys - 1, by omega⟩
    have hsink : (streamChatResponse (k + 1) cursor ab chunks).sink
        = chunks.filter (fun c => !c.isEmpty) := by
      unfold streamChatResponse withKeyRotationW
      rw [rotGoW_succ]
      simp [getClient, streamLoop_no_abort ab hab chunks 0]
    exact ⟨hsink, by rw [hsink, flatten_filter_nonempty]⟩
  · intro ab chunks hab
    rw [analyzeStream_no_abort ab hab chunks 0]
    exact ⟨rfl, flatten_filter_nonempty chunks, rfl⟩

/-- Witness for `stream_chunk_concat` on a concrete two-fragment stream. -/
theorem stream_chunk_concat_witness :
    (1 ≤ 1 ∧ ∀ i : Nat, (fun (_ : Nat) => false) i = false)
    ∧ ((streamChatResponse 1 0 (fun _ => false) ["Hel".data, "lo".data]).sink
          = ["Hel".data, "lo".data]
        ∧ ((streamChatResponse 1 0 (fun _ => false) ["Hel".data, "lo".data]).sink).flatten
          = "Hello".data) := by
  refine ⟨⟨by decide, fun _ => rfl⟩, ?_⟩
  have h := stream_chunk_concat.1 1 0 (fun _ => false) ["Hel".data, "lo".data]
    (by decide) (fun _ => rfl)
  exact ⟨by rw [h.1]; decide, by rw [h.2]; decide⟩

/-- JSON values, as produced by the runtime's `JSON.parse`. -/
inductive JVal where
  | null
  | bool (b : Bool)
  | num (n : Int)
  | str (s : Str)
  | arr (elems : List JVal)
  | obj (fields : List (Str × JVal))

/-- `response.text?.trim() || '[]'` of `aiSearchJudgments`: a missing text
and a text that trims to the empty string are both replaced by `"[]"`. -/
def jsRawText (t : Option Str) : Str :=
  match t with
  | none => "[]".data
  | some s => if trimJs s = [] then "[]".data else trimJs s

/-- The operation `aiSearchJudgments` runs inside `withKeyRotation`: obtain
the client, call the provider (`generateContent`, modelled by the text it
returns or the error it throws), normalize the raw text, and `JSON.parse`
it — any value parsed is returned as-is (the `as string[]` cast has no
runtime effect), while a parse throw yields the empty array. -/
def aiSearchOp (numKeys : Nat) (parse : Str → Option JVal)
    (provider : Nat → Nat → Except JsError (Option Str)) (a cur : Nat) :
    Except JsError JVal × List Str :=
  match getClient numKeys cur with
  | Except.error e => (Except.error e, [])
  | Except.ok _ =>
    match provider a cur with
    | Except.error e => (Except.error e, [])
    | Except.ok t =>
      match parse (jsRawText t) with
      | some v => (Except.ok v, [])
      | none => (Except.ok (JVal.arr []), [])

/-- `aiSearchJudgments`: the inner operation under key rotation, with the
outer `catch (error) { return []; }` turning *every* failure into the empty
array. -/
def aiSearchJudgments (numKeys cursor : Nat) (parse : Str → Option JVal)
    (provider : Nat → Nat → Except JsError (Option Str)) : RunResult JVal :=
  let inner := withKeyRotationW numKeys (aiSearchOp numKeys parse provider) cursor
  match inner.result with
  | Except.ok v => ⟨Except.ok v, inner.cursor, inner.attempts, inner.sink⟩
  | Except.error _ => ⟨Except.ok (JVal.arr []), inner.cursor, inner.attempts, inner.sink⟩

/-- `cleaned.replace(/^```(?:json)?\s*/, '')` of `analyzeJudgment`, applied
to a string known to start with a fence: drop the fence opener (with the
optional `json` tag) and the whitespace run after it. -/
def stripJsonFenceOpen (c : Str) : Str :=
  if "```json".data.isPrefixOf c then trimL (c.drop 7)
  else if "```".data.isPrefixOf c then trimL (c.drop 3)
  else c

/-- `.replace(/\s*```$/, '')`: the (single, end-anchored) match is the final
"```" together with the maximal whitespace run before it; strings not ending
in "```" have no match. -/
def stripJsonFenceClose (c : Str) : Str :=
  if endsWithStr "```".data c then trimR c.dropLast.dropLast.dropLast else c

/-- The JSON clean-up of `analyzeJudgment`: trim the accumulated response,
and if it starts with a fence, strip the opening and closing fence markers. -/
def jsonCleanOf (f : Str) : Str :=
  if "```".data.isPrefixOf (trimJs f) then
    stripJsonFenceClose (stripJsonFenceOpen (trimJs f))
  else trimJs f

/-- `JSON.parse(cleaned) as JudgmentAnalysis` with its surrounding
try/catch: the parsed value — whatever its shape — or `none` on a parse
throw. -/
def analyzeJudgmentParse (parse : Str → Option JVal) (f : Str) : Option JVal :=
  parse (jsonCleanOf f)

/-- The operation `analyzeJudgment` runs inside `withKeyRotation`: obtain
the client, read the provider stream accumulating `fullResponse` while
forwarding fragments to the sink. -/
def analyzeJudgmentOp (numKeys : Nat) (ab : Nat → Bool) (chunks : List Str)
    (_attempt cur : Nat) : Except JsError Str × List Str :=
  match getClient numKeys cur with
  | Except.error e => (Except.error e, [])
  | Except.ok _ =>
    let fs := analyzeStream ab chunks 0
    (Except.ok fs.1, fs.2)

/-- `analyzeJudgment`: rotation-wrapped streaming accumulation followed by
fence-stripping and fallible JSON parsing; errors (including cancellation)
are rethrown, parse failure resolves to `none`. -/
def analyzeJudgment (numKeys cursor : Nat) (parse : Str → Option JVal)
    (ab : Nat → Bool) (chunks : List Str) : RunResult (Option JVal) :=
  let inner := withKeyRotationW numKeys (analyzeJudgmentOp numKeys ab chunks) cursor
  match inner.result with
  | Except.ok full =>
    ⟨Except.ok (analyzeJudgmentParse parse full), inner.cursor, inner.attempts, inner.sink⟩
  | Except.error e => ⟨Except.error e, inner.cursor, inner.attempts, inner.sink⟩

/-- If the wrapped operation never succeeds, neither does the rotation loop. -/
theorem rotGoW_not_ok_of_op_not_ok (numKeys : Nat)
    (op : Nat → Nat → Except JsError α × List Str)
    (h : ∀ a c, ((op a c).1).isOk = false) :
    ∀ (fuel triedKeys cursor attempts : Nat) (log : List Str),
      ((rotGoW numKeys op fuel triedKeys cursor attempts log).result).isOk = false := by
  intro fuel
  induction fuel with
  | zero => intro triedKeys cursor attempts log; rfl
  | succ f ih =>
    intro triedKeys cursor attempts log
    rw [rotGoW_succ]
    cases hres : (op attempts cursor).1 with
    | ok a =>
      have := h attempts cursor
      rw [hres] at this
      simp [Except.isOk, Except.toBool] at this
    | error e =>
      dsimp only
      split_ifs <;> first | rfl | exact ih _ _ _ _

/-- Specialization to a full `withKeyRotation` run. -/
theorem withKeyRotationW_not_ok_of_op_not_ok (numKeys cursor : Nat)
    (op : Nat → Nat → Except JsError α × List Str)
    (h : ∀ a c, ((op a c).1).isOk = false) :
    ((withKeyRotationW numKeys op cursor).result).isOk = false :=
  rotGoW_not_ok_of_op_not_ok numKeys op h numKeys 0 cursor 0 []

/-- The first attempt of `analyzeJudgment` succeeds when keys exist, so its
settled result is the parse of the accumulated response. -/
theorem analyzeJudgment_result_parse (numKeys cursor : Nat)
    (parse : Str → Option JVal) (ab : Nat → Bool) (chunks : List Str)
    (hn : 1 ≤ numKeys) :
    (analyzeJudgment numKeys cursor parse ab chunks).result
      = Except.ok (analyzeJudgmentParse parse (analyzeStream ab chunks 0).1) := by
  obtain ⟨k, rfl⟩ : ∃ k, numKeys = k + 1 := ⟨numKeys - 1, by omega⟩
  unfold analyzeJudgment withKeyRotationW
  rw [rotGoW_succ]
  simp [analyzeJudgmentOp, getClient]

/-- A `JSON.parse` instance that recognizes the text `42` as the JSON number
42 (and nothing else). -/
def parseNum42 : Str → Option JVal :=
  fun s => if s = "42".data then some (JVal.num 42) else none

/-- Claim C9 counterexample: when the provider responds with the text `42`
— valid JSON, but *not* a JSON array of identifier strings — the claim
requires an empty list; yet `aiSearchJudgments` returns the parsed number
unchecked (the `as string[]` cast does not validate). -/
theorem aiSearch_nonarray_counterexample :
    (aiSearchJudgments 1 0 parseNum42 (fun _ _ => Except.ok (some "42".data))).result
      = Except.ok (JVal.num 42)
    ∧ ¬ (Except.ok (JVal.num 42) : Except JsError JVal) = Except.ok (JVal.arr []) := by
  refine ⟨rfl, ?_⟩
  intro h
  injection h with h2
  cases h2

/-- Claim C9 (amended): `aiSearchJudgments` returns the empty array whenever
the provider call fails (any error, rotation-exhausted or otherwise — the
outer catch swallows everything, so no error ever propagates) or the
response text fails JSON parsing; but a response that parses to *any* JSON
value — array of strings or not — is returned as-is, unvalidated. -/
theorem aiSearch_best_effort :
    (∀ (numKeys cursor : Nat) (parse : Str → Option JVal) (e : JsError),
      (aiSearchJudgments numKeys cursor parse (fun _ _ => Except.error e)).result
        = Except.ok (JVal.arr []))
    ∧ (∀ (numKeys cursor : Nat) (parse : Str → Option JVal) (t : Option Str),
      1 ≤ numKeys → parse (jsRawText t) = none →
      (aiSearchJudgments numKeys cursor parse (fun _ _ => Except.ok t)).result
        = Except.ok (JVal.arr []))
    ∧ (∀ (numKeys cursor : Nat) (parse : Str → Option JVal) (t : Option Str) (v : JVal),
      1 ≤ numKeys → parse (jsRawText t) = some v →
      (aiSearchJudgments numKeys cursor parse (fun _ _ => Except.ok t)).result
        = Except.ok v) := by
  refine ⟨?_, ?_, ?_⟩
  · intro numKeys cursor parse e
    have hop : ∀ a c,
        (((aiSearchOp numKeys parse (fun _ _ => Except.error e)) a c).1).isOk = false := by
      intro a c
      unfold aiSearchOp getClient
      split <;> rfl
    have hno := withKeyRotationW_not_ok_of_op_not_ok numKeys cursor
      (aiSearchOp numKeys parse (fun _ _ => Except.error e)) hop
    unfold aiSearchJudgments
    cases hres : (withKeyRotationW numKeys
        (aiSearchOp numKeys parse (fun _ _ => Except.error e)) cursor).result with
    | ok v =>
      rw [hres] at hno
      simp [Except.isOk, Except.toBool] at hno
    | error e2 => simp [hres]
  · intro numKeys cursor parse t hn hp
    obtain ⟨k, rfl⟩ : ∃ k, numKeys = k + 1 := ⟨numKeys - 1, by omega⟩
    unfold aiSearchJudgments withKeyRotationW
    rw [rotGoW_succ]
    simp [aiSearchOp, getClient, hp]
  · intro numKeys cursor parse t v hn hp
    obtain ⟨k, rfl⟩ : ∃ k, numKeys = k + 1 := ⟨numKeys - 1, by omega⟩
    unfold aiSearchJudgments withKeyRotationW
    rw [rotGoW_succ]
    simp [aiSearchOp, getClient, hp]

/-- Witness for `aiSearch_best_effort`: a parse-failing response yields the
empty array, and a provider failure yields the empty array. -/
theorem aiSearch_best_effort_witness :
    (1 ≤ 1 ∧ (fun (_ : Str) => (none : Option JVal)) (jsRawText (some "nonsense".data)) = none)
    ∧ (aiSearchJudgments 1 0 (fun _ => none)
        (fun _ _ => Except.ok (some "nonsense".data))).result = Except.ok (JVal.arr [])
    ∧ (aiSearchJudgments 1 0 (fun _ => none)
        (fun _ _ => Except.error rate429Error)).result = Except.ok (JVal.arr []) :=
  ⟨⟨by decide, rfl⟩,
   aiSearch_best_effort.2.1 1 0 (fun _ => none) (some "nonsense".data) (by decide) rfl,
   aiSearch_best_effort.1 1 0 (fun _ => none) rate429Error⟩

/-- Claim C10: `analyzeJudgment` performs no shape validation — whenever the
fence-stripped response parses as *any* JSON value `v` (string, number,
array, object missing every expected field, …), the operation resolves with
`some v` rather than treating it as a parse failure. -/
theorem analyzeJudgment_no_shape_validation :
    ∀ (numKeys cursor : Nat) (parse : Str → Option JVal) (ab : Nat → Bool)
      (chunks : List Str) (v : JVal),
      1 ≤ numKeys →
      parse (jsonCleanOf (analyzeStream ab chunks 0).1) = some v →
      (analyzeJudgment numKeys cursor parse ab chunks).result = Except.ok (some v) := by
  intro numKeys cursor parse ab chunks v hn hp
  rw [analyzeJudgment_result_parse numKeys cursor parse ab chunks hn]
  unfold analyzeJudgmentParse
  rw [hp]

/-- Witness for `analyzeJudgment_no_shape_validation`: a response consisting
of the bare JSON number `42` is returned as a non-null result. -/
theorem analyzeJudgment_no_shape_validation_witness :
    (1 ≤ 1
      ∧ parseNum42 (jsonCleanOf (analyzeStream (fun _ => false) ["42".data] 0).1)
        = some (JVal.num 42))
    ∧ (analyzeJudgment 1 0 parseNum42 (fun _ => false) ["42".data]).result
      = Except.ok (some (JVal.num 42)) :=
  ⟨⟨by decide, rfl⟩,
   analyzeJudgment_no_shape_validation 1 0 parseNum42 (fun _ => false) ["42".data]
     (JVal.num 42) (by decide) rfl⟩

/-- Left-trimming is idempotent. -/
theorem trimL_idem (s : Str) : trimL (trimL s) = trimL s := by
  unfold trimL
  induction s with
  | nil => rfl
  | cons c cs ih =>
    cases h : isJsWs c with
    | false => rw [List.dropWhile_cons_of_neg (by simp [h]), List.dropWhile_cons_of_neg (by simp [h])]
    | true => rw [List.dropWhile_cons_of_pos (by simp [h])]; exact ih

/-- Left-trimming over a leading whitespace character. -/
theorem trimL_cons_ws (c : Char) (s : Str) (h : isJsWs c = true) :
    trimL (c :: s) = trimL s := by
  unfold trimL
  rw [List.dropWhile_cons_of_pos (by simp [h])]

/-- Left-trimming stops at a non-whitespace head. -/
theorem trimL_cons_not_ws (c : Char) (s : Str) (h : isJsWs c = false) :
    trimL (c :: s) = c :: s := by
  unfold trimL
  rw [List.dropWhile_cons_of_neg (by simp [h])]

/-- Right-trimming absorbs a trailing whitespace character. -/
theorem trimR_concat_ws (w : Char) (x : Str) (h : isJsWs w = true) :
    trimR (x ++ [w]) = trimR x := by
  induction x with
  | nil => simp [trimR, h]
  | cons c cs ih => simp [trimR, ih]

/-- Right-trimming stops at a non-whitespace last character. -/
theorem trimR_concat_not_ws (w : Char) (x : Str) (h : isJsWs w = false) :
    trimR (x ++ [w]) = x ++ [w] := by
  induction x with
  | nil => simp [trimR, h]
  | cons c cs ih => simp [trimR, ih]

/-- Right-trimming is idempotent. -/
theorem trimR_idem (s : Str) : trimR (trimR s) = trimR s := by
  induction s with
  | nil => rfl
  | cons c cs ih =>
    simp only [trimR]
    split_ifs with h
    · simp [trimR]
    · simp only [trimR, ih]
      rw [if_neg h]

/-- The two trims commute. -/
theorem trimL_trimR_comm (s : Str) : trimL (trimR s) = trimR (trimL s) := by
  induction s with
  | nil => rfl
  | cons c cs ih =>
    simp only [trimR]
    split_ifs with h
    · obtain ⟨h1, h2⟩ := h
      rw [trimL_cons_ws c cs h2, ← ih, h1]
    · cases hc : isJsWs c with
      | true =>
        have h1 : ¬ trimR cs = [] := fun h1 => h ⟨h1, by simp [hc]⟩
        rw [trimL_cons_ws c (trimR cs) hc, trimL_cons_ws c cs hc, ih]
      | false =>
        rw [trimL_cons_not_ws c (trimR cs) hc, trimL_cons_not_ws c cs hc]
        simp only [trimR]
        rw [if_neg h]

/-- JS `trim` is idempotent. -/
theorem trimJs_idem (s : Str) : trimJs (trimJs s) = trimJs s := by
  unfold trimJs
  rw [show trimR (trimL (trimR s)) = trimL (trimR (trimR s)) from (trimL_trimR_comm (trimR s)).symm ▸ rfl]
  rw [trimR_idem, trimL_idem]

/-- A trailing newline is removed by `trim`. -/
theorem trimJs_append_nl (A : Str) : trimJs (A ++ ['\n']) = trimJs A := by
  unfold trimJs
  rw [trimR_concat_ws '\n' A (by decide)]

/-- A leading newline is removed by `trim`. -/
theorem trimJs_cons_nl (B : Str) : trimJs ('\n' :: B) = trimJs B := by
  unfold trimJs
  rw [trimL_trimR_comm, trimL_cons_ws '\n' B (by decide), ← trimL_trimR_comm]

/-- A list is a (boolean) prefix of itself followed by anything. -/
theorem isPrefixOf_self_append (p r : Str) : p.isPrefixOf (p ++ r) = true := by
  induction p with
  | nil => simp [List.isPrefixOf]
  | cons c cs ih => simp [List.isPrefixOf, ih]

/-- A prefix occurrence makes `firstOcc` succeed. -/
theorem firstOcc_isSome_of_prefix (pat s : Str) (h : pat.isPrefixOf s = true) :
    (firstOcc pat s).isSome = true := by
  cases s <;> simp [firstOcc, h]

/-- `firstOcc` at the very start of `pat ++ r`. -/
theorem firstOcc_self_append (pat r : Str) (hne : pat ≠ []) :
    firstOcc pat (pat ++ r) = some ([], r) := by
  obtain ⟨p, ps, rfl⟩ : ∃ p ps, pat = p :: ps := by
    cases pat with
    | nil => exact absurd rfl hne
    | cons p ps => exact ⟨p, ps, rfl⟩
  show firstOcc (p :: ps) (p :: (ps ++ r)) = some ([], r)
  unfold firstOcc
  rw [if_pos]
  · rw [show p :: (ps ++ r) = (p :: ps) ++ r from rfl, List.drop_left]
  · exact isPrefixOf_self_append (p :: ps) r

/-- If a pattern without a newline is a prefix of `A ++ '\n' :: z`, it is
already a prefix of `A`. -/
theorem isPrefixOf_of_append_nl (pat : Str) (hnl : ('\n' : Char) ∉ pat) :
    ∀ (A z : Str), pat.isPrefixOf (A ++ '\n' :: z) = true → pat.isPrefixOf A = true := by
  induction pat with
  | nil => intro A z _; simp [List.isPrefixOf]
  | cons p ps ih =>
    intro A z h
    cases A with
    | nil =>
      exfalso
      have hp : p = '\n' := by
        simp only [List.nil_append, List.isPrefixOf, Bool.and_eq_true, beq_iff_eq] at h
        exact h.1
      exact hnl (by simp [hp])
    | cons a as =>
      simp only [List.cons_append, List.isPrefixOf, Bool.and_eq_true] at h ⊢
      exact ⟨h.1, ih (fun hm => hnl (List.mem_cons_of_mem p hm)) as z h.2⟩

/-- If `pat` does not occur in `c :: cs`, it does not occur in `cs`. -/
theorem containsSub_tail (pat : Str) (c : Char) (cs : Str)
    (h : containsSub pat (c :: cs) = false) : containsSub pat cs = false := by
  unfold containsSub at h ⊢
  cases hf : firstOcc pat cs with
  | none => rfl
  | some ba =>
    exfalso
    unfold firstOcc at h
    rw [hf] at h
    split_ifs at h with hp
    · simp at h
    · obtain ⟨b, a⟩ := ba
      simp at h

/-- If `pat` occurs nowhere, `firstOcc` returns `none`. -/
theorem firstOcc_eq_none (pat s : Str) (h : containsSub pat s = false) :
    firstOcc pat s = none := by
  unfold containsSub at h
  cases hf : firstOcc pat s with
  | none => rfl
  | some ba => rw [hf] at h; simp at h

/-- The leftmost occurrence in `A ++ '\n' :: pat ++ r` for a newline-free
pattern not occurring in `A` is the explicitly inserted one. -/
theorem firstOcc_marker_append (pat : Str) (hne : pat ≠ []) (hnl : ('\n' : Char) ∉ pat) :
    ∀ (A r : Str), containsSub pat A = false →
      firstOcc pat (A ++ '\n' :: (pat ++ r)) = some (A ++ ['\n'], r) := by
  intro A
  induction A with
  | nil =>
    intro r _
    show firstOcc pat ('\n' :: (pat ++ r)) = some ([] ++ ['\n'], r)
    have hp : ¬ pat.isPrefixOf ('\n' :: (pat ++ r)) = true := by
      intro hp
      obtain ⟨p, ps, rfl⟩ : ∃ p ps, pat = p :: ps := by
        cases pat with
        | nil => exact absurd rfl hne
        | cons p ps => exact ⟨p, ps, rfl⟩
      have : p = '\n' := by
        simp only [List.isPrefixOf, Bool.and_eq_true, beq_iff_eq] at hp
        exact hp.1
      exact hnl (by simp [this])
    unfold firstOcc
    rw [if_neg hp, firstOcc_self_append pat r hne]
    rfl
  | cons a A' ih =>
    intro r hA
    show firstOcc pat (a :: (A' ++ '\n' :: (pat ++ r))) = some ((a :: A') ++ ['\n'], r)
    have hp : ¬ pat.isPrefixOf (a :: (A' ++ '\n' :: (pat ++ r))) = true := by
      intro hp
      have h2 : pat.isPrefixOf (a :: A') = true :=
        isPrefixOf_of_append_nl pat hnl (a :: A') (pat ++ r) hp
      have h3 := firstOcc_isSome_of_prefix pat (a :: A') h2
      unfold containsSub at hA
      rw [hA] at h3
      cases h3
    unfold firstOcc
    rw [if_neg hp, ih r (containsSub_tail pat a A' hA)]
    rfl

/-- A newline-free, nonempty pattern absent from `B` is also absent from
`'\n' :: B`. -/
theorem containsSub_cons_nl (pat B : Str) (hne : pat ≠ []) (hnl : ('\n' : Char) ∉ pat)
    (hB : containsSub pat B = false) : containsSub pat ('\n' :: B) = false := by
  have hp : ¬ pat.isPrefixOf ('\n' :: B) = true := by
    intro hp
    obtain ⟨p, ps, rfl⟩ : ∃ p ps, pat = p :: ps := by
      cases pat with
      | nil => exact absurd rfl hne
      | cons p ps => exact ⟨p, ps, rfl⟩
    have : p = '\n' := by
      simp only [List.isPrefixOf, Bool.and_eq_true, beq_iff_eq] at hp
      exact hp.1
    exact hnl (by simp [this])
  unfold containsSub firstOcc
  rw [if_neg hp, firstOcc_eq_none pat B hB]
  rfl

/-- A boolean prefix stays a prefix under extension on the right. -/
theorem isPrefixOf_append_mono (pat x y : Str) (h : pat.isPrefixOf x = true) :
    pat.isPrefixOf (x ++ y) = true := by
  induction pat generalizing x with
  | nil => simp [List.isPrefixOf]
  | cons p ps ih =>
    cases x with
    | nil => simp [List.isPrefixOf] at h
    | cons a as =>
      simp only [List.isPrefixOf, Bool.and_eq_true] at h ⊢
      exact ⟨h.1, ih as h.2⟩

/-- An occurrence in the tail is an occurrence. -/
theorem containsSub_cons_of_tail (pat : Str) (c : Char) (cs : Str)
    (h : containsSub pat cs = true) : containsSub pat (c :: cs) = true := by
  unfold containsSub at h ⊢
  unfold firstOcc
  split_ifs with hp
  · rfl
  · cases hf : firstOcc pat cs with
    | none => rw [hf] at h; cases h
    | some ba => obtain ⟨b, a⟩ := ba; rfl

/-- An occurrence in `a :: as` is at the start or in the tail. -/
theorem containsSub_cons_elim (pat : Str) (a : Char) (as : Str)
    (h : containsSub pat (a :: as) = true) :
    pat.isPrefixOf (a :: as) = true ∨ containsSub pat as = true := by
  unfold containsSub firstOcc at h
  split_ifs at h with hp
  · exact Or.inl hp
  · right
    cases hf : firstOcc pat as with
    | none => rw [hf] at h; cases h
    | some ba => unfold containsSub; rw [hf]; rfl

/-- An occurrence survives extension on the right. -/
theorem containsSub_append_right (pat x y : Str) (h : containsSub pat x = true) :
    containsSub pat (x ++ y) = true := by
  induction x with
  | nil =>
    unfold containsSub firstOcc at h
    split_ifs at h with hp
    · cases pat with
      | nil =>
        cases y with
        | nil => exact h
        | cons c cs => unfold containsSub firstOcc; simp [List.isPrefixOf]
      | cons p ps => simp [List.isPrefixOf] at hp
    · cases h
  | cons a as ih =>
    rcases containsSub_cons_elim pat a as h with hp | ht
    · exact firstOcc_isSome_of_prefix _ _ (isPrefixOf_append_mono pat (a :: as) y hp)
    · exact containsSub_cons_of_tail pat a (as ++ y) (ih ht)

/-- Left-trimming cannot create an occurrence. -/
theorem containsSub_trimL (pat s : Str) (h : containsSub pat s = false) :
    containsSub pat (trimL s) = false := by
  induction s with
  | nil => exact h
  | cons c cs ih =>
    cases hc : isJsWs c with
    | true => rw [trimL_cons_ws c cs hc]; exact ih (containsSub_tail pat c cs h)
    | false => rw [trimL_cons_not_ws c cs hc]; exact h

/-- `trimR s` is a prefix of `s`. -/
theorem trimR_append_exists (s : Str) : ∃ w, s = trimR s ++ w := by
  induction s with
  | nil => exact ⟨[], rfl⟩
  | cons c cs ih =>
    simp only [trimR]
    split_ifs with h
    · exact ⟨c :: cs, rfl⟩
    · obtain ⟨w, hw⟩ := ih
      exact ⟨w, by rw [List.cons_append, ← hw]⟩

/-- Right-trimming cannot create an occurrence. -/
theorem containsSub_trimR (pat s : Str) (h : containsSub pat s = false) :
    containsSub pat (trimR s) = false := by
  cases hc : containsSub pat (trimR s) with
  | false => rfl
  | true =>
    exfalso
    obtain ⟨w, hw⟩ := trimR_append_exists s
    have := containsSub_append_right pat (trimR s) w hc
    rw [← hw, h] at this
    cases this

/-- Trimming cannot create an occurrence. -/
theorem containsSub_trimJs (pat s : Str) (h : containsSub pat s = false) :
    containsSub pat (trimJs s) = false :=
  containsSub_trimL pat (trimR s) (containsSub_trimR pat s h)

/-- ASCII lower-casing, for the `/i` regex flag. -/
def charLower (c : Char) : Char :=
  if 'A' ≤ c ∧ c ≤ 'Z' then Char.ofNat (c.toNat + 32) else c

/-- Case-insensitive prefix test (JS regex `/i` on a literal pattern). -/
def ciPrefix : Str → Str → Bool
  | [], _ => true
  | _ :: _, [] => false
  | p :: ps, c :: cs => if charLower p = charLower c then ciPrefix ps cs else false

/-- Match of `/^```mermaid/i` at the start of the string: three literal
backticks, then `mermaid` case-insensitively. -/
def matchCIMermaid (s : Str) : Bool :=
  if "```".data.isPrefixOf s then ciPrefix "mermaid".data (s.drop 3) else false

/-- `.replace(/^```mermaid\s*/i, '')`: if the string starts with a mermaid
fence opener, drop the 10 pattern characters and the whitespace run after
them; non-global and anchored, so nothing else changes. -/
def rep1m (s : Str) : Str :=
  if matchCIMermaid s then trimL (s.drop 10) else s

/-- Drop a whitespace run and report whether the stop position sits at a
line start (i.e. right after a consumed newline). -/
def dropWsLS : Bool → Str → Bool × Str
  | prev, [] => (prev, [])
  | prev, c :: cs => if isJsWs c then dropWsLS (c == '\n') cs else (prev, c :: cs)

/-- Scanner for `.replace(/^```\s*/gm, '')`: at each line start, a "```"
with the whitespace run after it is removed and scanning resumes after the
match; elsewhere characters are copied.  `fuel` bounds the scan (each step
consumes at least one character, so the string length suffices). -/
def rep2Aux : Nat → Bool → Str → Str
  | 0, _, s => s
  | _ + 1, _, [] => []
  | fuel + 1, lineStart, c :: cs =>
    if lineStart ∧ "```".data.isPrefixOf (c :: cs) then
      let lsRest := dropWsLS false ((c :: cs).drop 3)
      rep2Aux fuel lsRest.1 lsRest.2
    else c :: rep2Aux fuel (c == '\n') cs

/-- `.replace(/^```\s*/gm, '')` applied to the whole string (scanning starts
at a line start). -/
def rep2 (s : Str) : Str := rep2Aux s.length true s

/-- Whether a position is at a line end (`$` with the `m` flag): end of the
string or immediately before a newline. -/
def lineEndAfter (t : Str) : Bool :=
  match t with
  | [] => true
  | c :: _ => c == '\n'

/-- Scanner for `.replace(/\s*```$/gm, '')`: at each position, the maximal
whitespace run followed by "```" at a line end is a match (only the maximal
run can be followed by a backtick) and is removed; scanning resumes after
the match, otherwise advances one character. -/
def rep3Aux : Nat → Str → Str
  | 0, s => s
  | _ + 1, [] => []
  | fuel + 1, c :: cs =>
    let rest := trimL (c :: cs)
    if "```".data.isPrefixOf rest ∧ lineEndAfter (rest.drop 3) then
      rep3Aux fuel (rest.drop 3)
    else c :: rep3Aux fuel cs

/-- `.replace(/\s*```$/gm, '')` applied to the whole string. -/
def rep3 (s : Str) : Str := rep3Aux s.length s

/-- The mermaid-code clean-up chain of `generateLegalFlowchart`:
`.replace(/^```mermaid\s*/i, '').replace(/^```\s*/gm, '')
.replace(/\s*```$/gm, '').trim()`. -/
def cleanMermaid (s : Str) : Str := trimJs (rep3 (rep2 (rep1m s)))

/-- The split marker `'---EXPLANATION---'`. -/
def marker : Str := "---EXPLANATION---".data

/-- `raw.split('---EXPLANATION---')`, restricted to the two parts the code
reads: `parts[0]` (before the first occurrence, or the whole string) and
`parts[1]` (between the first and second occurrence, after the first when it
is the only one, and absent — yielding `''` after `?.trim() || ''` — when
there is none). -/
def flowSplit (raw : Str) : Str × Str :=
  match firstOcc marker raw with
  | none => (raw, [])
  | some (p0, rest) =>
    match firstOcc marker rest with
    | none => (p0, rest)
    | some (p1, _) => (p0, p1)

/-- The response post-processing of `generateLegalFlowchart`: split on the
marker, trim both parts, and clean accidental fences from the mermaid part. -/
def flowchartPost (raw : Str) : Str × Str :=
  (cleanMermaid (trimJs (flowSplit raw).1), trimJs (flowSplit raw).2)

/-- Without any fence in the string, the mermaid-opener replace is the
identity. -/
theorem rep1m_id (s : Str) (h : containsSub "```".data s = false) : rep1m s = s := by
  unfold rep1m
  have hm : matchCIMermaid s = false := by
    unfold matchCIMermaid
    split_ifs with hp
    · exfalso
      have := firstOcc_isSome_of_prefix "```".data s hp
      unfold containsSub at h
      rw [h] at this
      cases this
    · rfl
  rw [hm]
  simp

/-- Without any fence, the line-start fence replace is the identity. -/
theorem rep2Aux_id (fuel : Nat) :
    ∀ (ls : Bool) (s : Str), containsSub "```".data s = false →
      rep2Aux fuel ls s = s := by
  induction fuel with
  | zero => intro ls s _; rfl
  | succ f ih =>
    intro ls s h
    cases s with
    | nil => rfl
    | cons c cs =>
      have hp : ¬ "```".data.isPrefixOf (c :: cs) = true := by
        intro hp
        have := firstOcc_isSome_of_prefix "```".data (c :: cs) hp
        unfold containsSub at h
        rw [h] at this
        cases this
      unfold rep2Aux
      rw [if_neg (fun hand => hp hand.2)]
      rw [ih (c == '\n') cs (containsSub_tail _ c cs h)]

/-- Without any fence, the line-end fence replace is the identity. -/
theorem rep3Aux_id (fuel : Nat) :
    ∀ s : Str, containsSub "```".data s = false → rep3Aux fuel s = s := by
  induction fuel with
  | zero => intro s _; rfl
  | succ f ih =>
    intro s h
    cases s with
    | nil => rfl
    | cons c cs =>
      have hp : ¬ "```".data.isPrefixOf (trimL (c :: cs)) = true := by
        intro hp
        have h2 := containsSub_trimL "```".data (c :: cs) h
        have := firstOcc_isSome_of_prefix "```".data (trimL (c :: cs)) hp
        unfold containsSub at h2
        rw [h2] at this
        cases this
      unfold rep3Aux
      rw [if_neg (fun hand => hp hand.1)]
      rw [ih cs (containsSub_tail _ c cs h)]

/-- Without any fence, the whole mermaid clean-up chain only trims; on an
already-trimmed string it is the identity. -/
theorem cleanMermaid_trimJs_id (s : Str) (h : containsSub "```".data s = false) :
    cleanMermaid (trimJs s) = trimJs s := by
  have h2 : containsSub "```".data (trimJs s) = false := containsSub_trimJs _ s h
  unfold cleanMermaid rep2 rep3
  rw [rep1m_id _ h2, rep2Aux_id _ _ _ h2, rep3Aux_id _ _ h2, trimJs_idem]

/-- Claim C7: the flowchart post-processing splits a response of the form
`A \n ---EXPLANATION--- \n B` (marker not occurring inside `A` or `B`) into
the trimmed, fence-cleaned diagram part `A` and the trimmed explanation `B`;
when `A` carries no fence the diagram is exactly `trim A`; and a response
with no marker yields the whole trimmed response as the diagram with an
empty explanation. -/
theorem flowchart_split_law :
    (∀ A B : Str, containsSub marker A = false → containsSub marker B = false →
      flowchartPost (A ++ '\n' :: (marker ++ '\n' :: B))
        = (cleanMermaid (trimJs A), trimJs B))
    ∧ (∀ A B : Str, containsSub marker A = false → containsSub marker B = false →
      containsSub "```".data A = false →
      flowchartPost (A ++ '\n' :: (marker ++ '\n' :: B)) = (trimJs A, trimJs B))
    ∧ (∀ s : Str, containsSub marker s = false → containsSub "```".data s = false →
      flowchartPost s = (trimJs s, [])) := by
  have hne : marker ≠ [] := by decide
  have hnl : ('\n' : Char) ∉ marker := by decide
  have main : ∀ A B : Str, containsSub marker A = false → containsSub marker B = false →
      flowchartPost (A ++ '\n' :: (marker ++ '\n' :: B))
        = (cleanMermaid (trimJs A), trimJs B) := by
    intro A B hA hB
    have h1 : firstOcc marker (A ++ '\n' :: (marker ++ '\n' :: B))
        = some (A ++ ['\n'], '\n' :: B) :=
      firstOcc_marker_append marker hne hnl A ('\n' :: B) hA
    have h2 : firstOcc marker ('\n' :: B) = none :=
      firstOcc_eq_none _ _ (containsSub_cons_nl marker B hne hnl hB)
    unfold flowchartPost flowSplit
    rw [h1]
    dsimp only
    rw [h2]
    dsimp only
    rw [trimJs_append_nl, trimJs_cons_nl]
  refine ⟨main, ?_, ?_⟩
  · intro A B hA hB hf
    rw [main A B hA hB, cleanMermaid_trimJs_id A hf]
  · intro s hm hf
    unfold flowchartPost flowSplit
    rw [firstOcc_eq_none marker s hm]
    dsimp only
    rw [cleanMermaid_trimJs_id s hf]
    rfl

/-- Witness for `flowchart_split_law` at the literal response
`"A\n---EXPLANATION---\nB"` (and implicitly the no-marker case via the
hypotheses being decidable). -/
theorem flowchart_split_law_witness :
    (containsSub marker "A".data = false ∧ containsSub marker "B".data = false
      ∧ containsSub "```".data "A".data = false)
    ∧ flowchartPost ("A".data ++ '\n' :: (marker ++ '\n' :: "B".data))
      = ("A".data, "B".data) := by
  refine ⟨⟨by decide, by decide, by decide⟩, ?_⟩
  rw [flowchart_split_law.2.1 "A".data "B".data (by decide) (by decide) (by decide)]
  decide

/-- Left-trimming never lengthens a string. -/
theorem length_trimL_le (s : Str) : (trimL s).length ≤ s.length := by
  unfold trimL
  induction s with
  | nil => simp
  | cons c cs ih =>
    cases h : isJsWs c with
    | true =>
      rw [List.dropWhile_cons_of_pos (by simp [h])]
      calc (cs.dropWhile isJsWs).length ≤ cs.length := ih
        _ ≤ (c :: cs).length := by simp
    | false =>
      rw [List.dropWhile_cons_of_neg (by simp [h])]

/-- A left-trimmed nonempty string starts with a non-whitespace character. -/
theorem trimL_head_not_ws (d : Char) (ds : Str) (h : trimL (d :: ds) = d :: ds) :
    isJsWs d = false := by
  cases hd : isJsWs d with
  | false => rfl
  | true =>
    exfalso
    rw [trimL_cons_ws d ds hd] at h
    have hle := length_trimL_le ds
    rw [h] at hle
    simp at hle

/-- Dropping the last three elements of `x ++ [a, b, c]` yields `x`. -/
theorem dropLast3_append (x : Str) (a b c : Char) :
    ((x ++ [a, b, c]).dropLast.dropLast.dropLast) = x := by
  have h1 : x ++ [a, b, c] = (x ++ [a, b]) ++ [c] := by simp
  rw [h1, List.dropLast_concat]
  have h2 : x ++ [a, b] = (x ++ [a]) ++ [b] := by simp
  rw [h2, List.dropLast_concat, List.dropLast_concat]

/-- Every string of the form `x ++ "\n```"` ends with the fence. -/
theorem endsWith_fence_append (x : Str) :
    endsWithStr "```".data (x ++ "\n```".data) = true := by
  unfold endsWithStr
  rw [List.reverse_append]
  rw [show ("\n```".data : Str).reverse = "```".data.reverse ++ ['\n'] from by decide]
  rw [List.append_assoc]
  exact isPrefixOf_self_append _ _

/-- Fence-stripping of `analyzeJudgment` removes a ```` ```json ```` wrapper
exactly, recovering the trimmed payload. -/
theorem jsonCleanOf_wrapped (t : Str) (ht1 : trimL t = t) (ht2 : trimR t = t) :
    jsonCleanOf ("```json\n".data ++ (t ++ "\n```".data)) = t := by
  have hdec1 : "```json\n".data = "```json".data ++ ['\n'] := by decide
  have htrim : trimJs ("```json\n".data ++ (t ++ "\n```".data))
      = "```json\n".data ++ (t ++ "\n```".data) := by
    unfold trimJs
    have h3 : "\n``".data ++ ['\x60'] = "\n```".data := by decide
    have hsplit : "```json\n".data ++ (t ++ "\n```".data)
        = ("```json\n".data ++ (t ++ "\n``".data)) ++ ['\x60'] := by
      rw [← h3]
      simp [List.append_assoc]
    have hR : trimR ("```json\n".data ++ (t ++ "\n```".data))
        = "```json\n".data ++ (t ++ "\n```".data) := by
      rw [hsplit, trimR_concat_not_ws _ _ (by decide)]
    rw [hR]
    have h4 : "```json\n".data ++ (t ++ "\n```".data)
        = '\x60' :: ("``json\n".data ++ (t ++ "\n```".data)) := by
      rw [show "```json\n".data = '\x60' :: "``json\n".data from by decide]
      rfl
    rw [h4, trimL_cons_not_ws _ _ (by decide)]
  have hpre : "```".data.isPrefixOf ("```json\n".data ++ (t ++ "\n```".data)) = true := by
    rw [show "```json\n".data = "```".data ++ "json\n".data from by decide, List.append_assoc]
    exact isPrefixOf_self_append _ _
  unfold jsonCleanOf
  rw [htrim, if_pos hpre]
  unfold stripJsonFenceOpen
  have hpre7 : "```json".data.isPrefixOf ("```json\n".data ++ (t ++ "\n```".data)) = true := by
    rw [hdec1, List.append_assoc]
    exact isPrefixOf_self_append _ _
  rw [if_pos hpre7]
  have hdrop : ("```json\n".data ++ (t ++ "\n```".data)).drop 7
      = '\n' :: (t ++ "\n```".data) := by
    rw [hdec1, List.append_assoc]
    rw [show (7 : Nat) = ("```json".data : Str).length from rfl, List.drop_left]
    rfl
  rw [hdrop, trimL_cons_ws _ _ (by decide)]
  cases t with
  | nil =>
    simp only [List.nil_append]
    rw [show trimL ("\n```".data) = "```".data from by decide]
    unfold stripJsonFenceClose
    rw [if_pos (by decide)]
    decide
  | cons d ds =>
    have hd : isJsWs d = false := trimL_head_not_ws d ds ht1
    show stripJsonFenceClose (trimL (d :: (ds ++ "\n```".data))) = d :: ds
    rw [trimL_cons_not_ws _ _ hd]
    unfold stripJsonFenceClose
    have hend : endsWithStr "```".data (d :: (ds ++ "\n```".data)) = true :=
      endsWith_fence_append (d :: ds)
    rw [if_pos hend]
    have h7 : d :: (ds ++ "\n```".data) = ((d :: ds) ++ ['\n']) ++ ['\x60', '\x60', '\x60'] := by
      rw [show ("\n```".data : Str) = '\n' :: ['\x60', '\x60', '\x60'] from by decide]
      simp
    rw [h7]
    rw [show (((d :: ds) ++ ['\n']) ++ ['\x60', '\x60', '\x60']).dropLast.dropLast.dropLast
        = (d :: ds) ++ ['\n'] from dropLast3_append _ _ _ _]
    rw [trimR_concat_ws _ _ (by decide), ht2]

/-- Fence-stripping is the identity on trimmed, unfenced text. -/
theorem jsonCleanOf_plain (t : Str) (ht1 : trimL t = t) (ht2 : trimR t = t)
    (hp : "```".data.isPrefixOf t = false) : jsonCleanOf t = t := by
  have htr : trimJs t = t := by
    unfold trimJs
    rw [ht2, ht1]
  unfold jsonCleanOf
  rw [htr]
  rw [if_neg (by simp [hp])]

/-- Claim C8: a well-formed JSON object response, optionally wrapped in a
fenced code block, parses to exactly that object (fence removed); and a
response whose fence-stripped text is not valid JSON makes the operation
*resolve* with an absent result (`Except.ok none`), not throw. -/
theorem analyzeJudgment_json_roundtrip :
    (∀ (numKeys cursor : Nat) (parse : Str → Option JVal) (ab : Nat → Bool)
        (t : Str) (v : JVal),
      1 ≤ numKeys → (∀ i, ab i = false) → trimL t = t → trimR t = t →
      parse t = some v →
      (analyzeJudgment numKeys cursor parse ab
          ["```json\n".data ++ (t ++ "\n```".data)]).result = Except.ok (some v))
    ∧ (∀ (numKeys cursor : Nat) (parse : Str → Option JVal) (ab : Nat → Bool)
        (t : Str) (v : JVal),
      1 ≤ numKeys → (∀ i, ab i = false) → trimL t = t → trimR t = t →
      "```".data.isPrefixOf t = false → parse t = some v →
      (analyzeJudgment numKeys cursor parse ab [t]).result = Except.ok (some v))
    ∧ (∀ (numKeys cursor : Nat) (parse : Str → Option JVal) (ab : Nat → Bool)
        (chunks : List Str),
      1 ≤ numKeys → parse (jsonCleanOf (analyzeStream ab chunks 0).1) = none →
      (analyzeJudgment numKeys cursor parse ab chunks).result = Except.ok none) := by
  refine ⟨?_, ?_, ?_⟩
  · intro numKeys cursor parse ab t v hn hab ht1 ht2 hp
    rw [analyzeJudgment_result_parse _ _ _ _ _ hn]
    unfold analyzeJudgmentParse
    have hfull : (analyzeStream ab ["```json\n".data ++ (t ++ "\n```".data)] 0).1
        = "```json\n".data ++ (t ++ "\n```".data) := by
      rw [analyzeStream_no_abort ab hab _ 0]
      simp
    rw [hfull, jsonCleanOf_wrapped t ht1 ht2, hp]
  · intro numKeys cursor parse ab t v hn hab ht1 ht2 hpre hp
    rw [analyzeJudgment_result_parse _ _ _ _ _ hn]
    unfold analyzeJudgmentParse
    have hfull : (analyzeStream ab [t] 0).1 = t := by
      rw [analyzeStream_no_abort ab hab _ 0]
      simp
    rw [hfull, jsonCleanOf_plain t ht1 ht2 hpre, hp]
  · intro numKeys cursor parse ab chunks hn hp
    rw [analyzeJudgment_result_parse _ _ _ _ _ hn]
    unfold analyzeJudgmentParse
    rw [hp]

/-- A `JSON.parse` instance that recognizes exactly the empty-object text. -/
def parseEmptyObj : Str → Option JVal :=
  fun s => if s = "\x7b\x7d".data then some (JVal.obj []) else none

/-- Witness for `analyzeJudgment_json_roundtrip`: the empty JSON object
wrapped in a ```` ```json ```` fence round-trips. -/
theorem analyzeJudgment_json_roundtrip_witness :
    (1 ≤ 1 ∧ trimL "\x7b\x7d".data = "\x7b\x7d".data
      ∧ trimR "\x7b\x7d".data = "\x7b\x7d".data
      ∧ parseEmptyObj "\x7b\x7d".data = some (JVal.obj []))
    ∧ (analyzeJudgment 1 0 parseEmptyObj (fun _ => false)
        ["```json\n".data ++ ("\x7b\x7d".data ++ "\n```".data)]).result
      = Except.ok (some (JVal.obj [])) :=
  ⟨⟨by decide, by decide, by decide, rfl⟩,
   analyzeJudgment_json_roundtrip.1 1 0 parseEmptyObj (fun _ => false) "\x7b\x7d".data
     (JVal.obj []) (by decide) (fun _ => rfl) (by decide) (by decide) rfl⟩
